import Mathlib

/-!
Verification of the ChaosProbe placement engine and recovery-measurement
engine, as a shallow embedding of the relevant Python modules
(`chaosprobe/placement/strategy.py`, `chaosprobe/placement/mutator.py`,
`chaosprobe/metrics/recovery.py`).

Modelling conventions:
- Python dicts with string keys become insertion-ordered association lists
  (`List (String × String)` and friends); where dict-key identity matters,
  theorems carry `Nodup` hypotheses on names (Kubernetes guarantees unique
  node and deployment names in practice).
- Python numbers: ints become `Int`, the only float arithmetic in the core
  (the antagonistic score `cpu + mem / 2^20`, the p95 index `len * 0.95`,
  and `round(x, 1)`) is modelled exactly over `ℚ`; all those divisions are
  by powers of 2 and 10 on integer data, so the rational value coincides
  with the Python float value on all realistic input magnitudes.
- Fallible code (`raise ValueError`) becomes `Except String`.
- The Python stdlib RNG (`random.Random`) is external library code, not part
  of the repository; it is modelled as an explicit deterministic generator
  record (`PRNG`) threaded through the assignment computation exactly the
  way `rng.choice` is called in the source.
- Kubernetes API calls in the mutator are modelled by returning the list of
  patches the code would issue together with the post-states of the patched
  objects; the free-form `metadata` diagnostic strings of NodeAssignment are
  not modelled (no verified property mentions them).
-/

deriving instance DecidableEq for Except

namespace ChaosProbe

/-! ### Small string helpers (kernel-computable stand-ins for Python string ops) -/

/-- Lower-case an ASCII character, as Python `str.lower` does on ASCII input
(node names are DNS-1123 names, hence ASCII). -/
def charLower (c : Char) : Char :=
  if 'A' ≤ c && c ≤ 'Z' then Char.ofNat (c.toNat + 32) else c

/-- Check whether the first list is a prefix of the second. -/
def listStarts : List Char → List Char → Bool
  | [], _ => true
  | _ :: _, [] => false
  | a :: ps, b :: l => a == b && listStarts ps l

/-- Check whether `pat` occurs as a contiguous sublist. -/
def subOccurs (pat : List Char) : List Char → Bool
  | [] => pat.isEmpty
  | b :: l => listStarts pat (b :: l) || subOccurs pat l

/-- Python `pat in s.lower()`. -/
def lowerContains (s pat : String) : Bool :=
  subOccurs pat.toList (s.toList.map charLower)

/-- Look up a key in an association list (Python `dict` read). -/
def lookupKey (k : String) : List (String × String) → Option String
  | [] => none
  | p :: l => if p.1 == k then some p.2 else lookupKey k l

/-- Membership of a key in an association list (Python `k in d`). -/
def hasKey (k : String) (l : List (String × String)) : Bool :=
  l.any (fun p => p.1 == k)

/-- Remove a key from an association list (Python `del d[k]`). -/
def removeKey (k : String) (l : List (String × String)) : List (String × String) :=
  l.filter (fun p => p.1 ≠ k)

/-! ### strategy.py — data model -/

/-- A node taint, as parsed by the mutator (`key`, `value`, `effect`). -/
structure Taint where
  key : String
  value : String
  effect : String
  deriving DecidableEq, Repr

/-- Embedding of `NodeInfo` (strategy.py): information about a cluster node. -/
structure NodeInfo where
  name : String
  labels : List (String × String) := []
  allocatable_cpu_millicores : Int := 0
  allocatable_memory_bytes : Int := 0
  conditions_ready : Bool := false
  taints : List Taint := []
  deriving DecidableEq, Repr

/-- Embedding of `NodeInfo.CONTROL_PLANE_LABEL_KEYS`. -/
def CONTROL_PLANE_LABEL_KEYS : List String :=
  ["node-role.kubernetes.io/master", "node-role.kubernetes.io/control-plane"]

/-- Embedding of `NodeInfo.is_schedulable`: no control-plane `NoSchedule`
taint, and the Ready condition holds. -/
def NodeInfo.is_schedulable (n : NodeInfo) : Bool :=
  !(n.taints.any fun t =>
      CONTROL_PLANE_LABEL_KEYS.contains t.key && t.effect == "NoSchedule")
  && n.conditions_ready

/-- Embedding of `NodeInfo.is_control_plane`: a control-plane label key is
present, or the lower-cased name contains one of "cp", "master", "control". -/
def NodeInfo.is_control_plane (n : NodeInfo) : Bool :=
  CONTROL_PLANE_LABEL_KEYS.any (fun k => hasKey k n.labels)
  || lowerContains n.name "cp"
  || lowerContains n.name "master"
  || lowerContains n.name "control"

/-- Embedding of the `PlacementStrategy` enum. -/
inductive PlacementStrategy where
  | colocate
  | spread
  | random
  | antagonistic
  deriving DecidableEq, Repr

/-- The string value of a strategy tag (the Python enum value). -/
def PlacementStrategy.value : PlacementStrategy → String
  | .colocate => "colocate"
  | .spread => "spread"
  | .random => "random"
  | .antagonistic => "antagonistic"

/-- Embedding of `NodeAssignment`: mapping from deployment names to node
names, plus the strategy tag and the optional seed.  The `assignments` dict
is an insertion-ordered association list; the free-form `metadata`
diagnostics are not modelled. -/
structure NodeAssignment where
  strategy : PlacementStrategy
  assignments : List (String × String) := []
  seed : Option Int := none
  deriving DecidableEq, Repr

/-- Embedding of `DeploymentInfo` (strategy.py). -/
structure DeploymentInfo where
  name : String
  replicas : Int := 1
  cpu_request_millicores : Int := 0
  memory_request_bytes : Int := 0
  current_node : Option String := none
  deriving DecidableEq, Repr

/-! ### strategy.py — the four placement algorithms -/

/-- Key used by `_pick_best_worker`: the pair `(not is_control_plane,
allocatable_cpu_millicores)` compared lexicographically, exactly the Python
`max(..., key=...)` tuple. -/
def workerKey (n : NodeInfo) : Bool × Int :=
  (!n.is_control_plane, n.allocatable_cpu_millicores)

/-- Strict lexicographic comparison of worker keys, with `false < true`
(the Python tuple `<`). -/
def keyLt (a b : Bool × Int) : Bool :=
  (!a.1 && b.1) || (a.1 == b.1 && a.2 < b.2)

/-- The fold inside Python `max`: keep the current best, replace it only
when a later element compares strictly greater, so the first maximal element
wins. -/
def pickFold (best : NodeInfo) : List NodeInfo → NodeInfo
  | [] => best
  | m :: rest => pickFold (if keyLt (workerKey best) (workerKey m) then m else best) rest

/-- Embedding of `_pick_best_worker`: the name of the node maximizing
`(not is_control_plane, allocatable_cpu)`; on the empty list (unreachable
behind the schedulability guard, where Python `max` would raise) it returns
the empty string. -/
def pick_best_worker : List NodeInfo → String
  | [] => ""
  | n :: rest => (pickFold n rest).name

/-- Python truthiness of the optional `target_node` argument
(`if target_node:`): present and non-empty. -/
def truthyTarget : Option String → Bool
  | none => false
  | some s => !s.isEmpty

/-- The error message raised for an unknown target node. -/
def targetNotFoundMsg (t : String) (node_names : List String) : String :=
  "Target node " ++ t ++ " not found among schedulable nodes: "
    ++ String.intercalate ", " node_names

/-- Embedding of `_compute_colocate`: all deployments pinned to a single
node, either the (truthy) caller target — which must be a schedulable node
name — or the best worker. -/
def compute_colocate (deployments : List DeploymentInfo) (nodes : List NodeInfo)
    (node_names : List String) (target_node : Option String) :
    Except String NodeAssignment :=
  if truthyTarget target_node then
    let t := target_node.getD ""
    if !(node_names.contains t) then
      .error (targetNotFoundMsg t node_names)
    else
      .ok { strategy := .colocate,
            assignments := deployments.map (fun d => (d.name, t)) }
  else
    let chosen := pick_best_worker nodes
    .ok { strategy := .colocate,
          assignments := deployments.map (fun d => (d.name, chosen)) }

/-- Embedding of `_compute_spread`: round-robin over the schedulable node
names in index order. -/
def compute_spread (deployments : List DeploymentInfo)
    (node_names : List String) : NodeAssignment :=
  { strategy := .spread,
    assignments := deployments.enum.map
      (fun p => (p.2.name, node_names.getD (p.1 % node_names.length) "")) }

/-- Model of the Python stdlib seeded generator `random.Random`:
`init` seeds a fresh generator state from the optional seed and `choiceIdx`
draws an index below the given bound, returning the advanced state.  The
generator internals live in the Python standard library, outside this
repository, so they are kept abstract; every theorem below holds for every
instantiation, in particular for the real Mersenne-Twister generator. -/
structure PRNG where
  State : Type
  init : Option Int → State
  choiceIdx : State → Nat → Nat × State

/-- Embedding of `_compute_random`: a fresh generator seeded with `seed`,
then one `rng.choice(node_names)` per deployment, in deployment order. -/
def compute_random (G : PRNG) (deployments : List DeploymentInfo)
    (node_names : List String) (seed : Option Int) : NodeAssignment :=
  let step := fun (acc : G.State × List (String × String)) (d : DeploymentInfo) =>
    let drawn := G.choiceIdx acc.1 node_names.length
    (drawn.2, acc.2 ++ [(d.name, node_names.getD drawn.1 "")])
  { strategy := .random,
    assignments := (deployments.foldl step (G.init seed, [])).2,
    seed := seed }

/-- Embedding of the antagonistic score: CPU request in millicores plus
memory request converted to MiB (`d.memory_request_bytes / (1024 * 1024)`,
Python true division, hence a rational value). -/
def depScore (d : DeploymentInfo) : ℚ :=
  (d.cpu_request_millicores : ℚ) + (d.memory_request_bytes : ℚ) / (1024 * 1024)

/-- Descending-score order used by `scored.sort(key=..., reverse=True)`. -/
def antRel (a b : DeploymentInfo) : Prop := depScore b ≤ depScore a

instance : DecidableRel antRel := fun a b => by unfold antRel; infer_instance

instance : IsTotal DeploymentInfo antRel :=
  ⟨fun a b => le_total (depScore b) (depScore a)⟩

instance : IsTrans DeploymentInfo antRel :=
  ⟨fun _ _ _ h1 h2 => le_trans h2 h1⟩

/-- The stable descending sort of the deployments by score.  Python `sort`
with `reverse=True` is a stable descending sort; `List.insertionSort` with
`antRel` produces the identical (unique) stable result. -/
def sortByScoreDesc (deployments : List DeploymentInfo) : List DeploymentInfo :=
  deployments.insertionSort antRel

/-- Embedding of `_compute_antagonistic`. -/
def compute_antagonistic (deployments : List DeploymentInfo)
    (nodes : List NodeInfo) (node_names : List String) : NodeAssignment :=
  if node_names.length < 2 then
    { strategy := .antagonistic,
      assignments := deployments.map (fun d => (d.name, node_names.getD 0 "")) }
  else
    let sortedDeps := sortByScoreDesc deployments
    let heavy_node := pick_best_worker nodes
    let light0 := node_names.filter (fun n => n ≠ heavy_node)
    let light_nodes := if light0.isEmpty then node_names else light0
    let midpoint := max 1 (sortedDeps.length / 2)
    { strategy := .antagonistic,
      assignments := sortedDeps.enum.map (fun p =>
        (p.2.name,
         if p.1 < midpoint then heavy_node
         else light_nodes.getD (p.1 % light_nodes.length) "")) }

/-- The error message raised when no schedulable node exists. -/
def noSchedulableMsg : String :=
  "No schedulable worker nodes available in the cluster"

/-- Embedding of `compute_assignments` (strategy.py): filter schedulable
nodes, fail if none remain, then dispatch on the strategy tag. -/
def compute_assignments (G : PRNG) (strategy : PlacementStrategy)
    (deployments : List DeploymentInfo) (nodes : List NodeInfo)
    (target_node : Option String) (seed : Option Int) :
    Except String NodeAssignment :=
  let schedulable := nodes.filter (fun n => n.is_schedulable)
  if schedulable.isEmpty then
    .error noSchedulableMsg
  else
    let node_names := schedulable.map (fun n => n.name)
    match strategy with
    | .colocate => compute_colocate deployments schedulable node_names target_node
    | .spread => .ok (compute_spread deployments node_names)
    | .random => .ok (compute_random G deployments node_names seed)
    | .antagonistic => .ok (compute_antagonistic deployments schedulable node_names)

/-! ### mutator.py — placement enforcement and clearing

Kubernetes API calls are modelled by data: each operation returns the
patches the code would issue plus the post-state of each object.  The
constant `MANAGED_ANNOT_KEY` embeds the source constant MANAGED_ANNOTATION
(the name is shortened here for lexical reasons only). -/

/-- Embedding of `PLACEMENT_LABEL_KEY` (mutator.py). -/
def PLACEMENT_LABEL_KEY : String := "chaosprobe.io/placement-zone"

/-- Embedding of the managed-by marker constant of mutator.py. -/
def MANAGED_ANNOT_KEY : String := "chaosprobe.io/placement-strategy"

/-- A deployment as the mutator reads it: its name, its
`metadata.annotations` map (`annots`), and its pod-template
`spec.template.spec.nodeSelector` map. -/
structure Deployment where
  name : String
  annots : List (String × String) := []
  node_selector : List (String × String) := []
  deriving DecidableEq, Repr

/-- The patch issued by `clear_placement` for one deployment: the managed
marker is removed and the node selector replaced (by `none`, i.e. null,
when nothing else remains in it). -/
structure ClearPatch where
  target : String
  removedAnnotKey : String
  newNodeSelector : Option (List (String × String))
  deriving DecidableEq, Repr

/-- Python `if deployments and name not in deployments: continue` —
the optional name filter of `clear_placement`, with Python truthiness
(an empty filter list behaves like no filter). -/
def skipByFilter (filterNames : Option (List String)) (name : String) : Bool :=
  match filterNames with
  | none => false
  | some fs => !fs.isEmpty && !fs.contains name

/-- One iteration of the `clear_placement` loop: returns the post-state of
the deployment and the patch issued for it, if any.  A deployment is
touched only when it passes the filter, carries the managed marker, and its
node selector contains `PLACEMENT_LABEL_KEY`. -/
def clearStep (filterNames : Option (List String)) (d : Deployment) :
    Deployment × Option ClearPatch :=
  if skipByFilter filterNames d.name then (d, none)
  else if !(hasKey MANAGED_ANNOT_KEY d.annots) then (d, none)
  else if hasKey PLACEMENT_LABEL_KEY d.node_selector then
    let remaining := removeKey PLACEMENT_LABEL_KEY d.node_selector
    ({ d with annots := removeKey MANAGED_ANNOT_KEY d.annots,
              node_selector := remaining },
     some { target := d.name,
            removedAnnotKey := MANAGED_ANNOT_KEY,
            newNodeSelector := if remaining.isEmpty then none else some remaining })
  else (d, none)

/-- Embedding of `PlacementMutator.clear_placement`: the post-states of all
deployments, the patches issued, and the returned list of cleared names. -/
def clear_placement (filterNames : Option (List String))
    (deps : List Deployment) :
    List Deployment × List ClearPatch × List String :=
  let results := deps.map (clearStep filterNames)
  (results.map (fun r => r.1),
   results.filterMap (fun r => r.2),
   (results.filterMap (fun r => r.2)).map (fun p => p.target))

/-- The patch issued by `_patch_deployment_placement` for one
(deployment, node) pair: a pod-template node selector entry and the
strategy-name marker annotation. -/
structure PlacementPatch where
  target : String
  selectorKey : String
  selectorValue : String
  strategyAnnotValue : String
  deriving DecidableEq, Repr

/-- The zone value written for a node: `f"zone-{node_name}"`. -/
def zoneFor (node_name : String) : String := "zone-" ++ node_name

/-- First-occurrence deduplication, the insertion order of the Python
`node_zones` dict. -/
def firstOccAux (seen : List String) : List String → List String
  | [] => []
  | a :: l => if seen.contains a then firstOccAux seen l
              else a :: firstOccAux (a :: seen) l

/-- First-occurrence order of the node names of an assignment. -/
def firstOccurrences (l : List String) : List String := firstOccAux [] l

/-- Embedding of `PlacementMutator._apply_assignment`: the node labels
applied (`node → zone-node`) and the deployment patches issued, one per
(deployment, node) pair of the assignment, in order. -/
def apply_assignment (a : NodeAssignment) :
    List (String × String) × List PlacementPatch :=
  let node_zones := firstOccurrences (a.assignments.map (fun p => p.2))
  (node_zones.map (fun n => (n, zoneFor n)),
   a.assignments.map (fun p =>
     { target := p.1,
       selectorKey := PLACEMENT_LABEL_KEY,
       selectorValue := zoneFor p.2,
       strategyAnnotValue := a.strategy.value }))

/-! ### recovery.py — recovery cycles and summary statistics

Timestamps are rationals standing for seconds since an arbitrary epoch;
durations are integer milliseconds obtained by the Python truncation
`int((b - a).total_seconds() * 1000)`. -/

/-- Python `int(...)` on a rational value: truncation toward zero. -/
def truncQ (x : ℚ) : Int := if 0 ≤ x then Int.floor x else Int.ceil x

/-- Embedding of a raw cycle dict before `_finalize_cycle`. -/
structure RawCycle where
  deletionTime : Option ℚ
  scheduledTime : Option ℚ := none
  readyTime : Option ℚ := none
  deriving DecidableEq, Repr

/-- Millisecond duration between two optional timestamps; `none` unless
both endpoints are present. -/
def durationMs (a b : Option ℚ) : Option Int :=
  match a, b with
  | some x, some y => some (truncQ ((y - x) * 1000))
  | _, _ => none

/-- Embedding of a finalized recovery cycle record. -/
structure RecoveryCycle where
  deletionTime : Option ℚ
  scheduledTime : Option ℚ
  readyTime : Option ℚ
  deletionToScheduled_ms : Option Int
  scheduledToReady_ms : Option Int
  totalRecovery_ms : Option Int
  deriving DecidableEq, Repr

/-- Embedding of `RecoveryWatcher._finalize_cycle`. -/
def finalize_cycle (c : RawCycle) : RecoveryCycle :=
  { deletionTime := c.deletionTime,
    scheduledTime := c.scheduledTime,
    readyTime := c.readyTime,
    deletionToScheduled_ms := durationMs c.deletionTime c.scheduledTime,
    scheduledToReady_ms := durationMs c.scheduledTime c.readyTime,
    totalRecovery_ms := durationMs c.deletionTime c.readyTime }

/-- Python `round(x, 1)`: round to one decimal digit, ties to even
(the IEEE/Python banker rounding on exact values). -/
def pyRound1 (x : ℚ) : ℚ :=
  let f : ℤ := Int.floor (10 * x)
  let r : ℚ := 10 * x - f
  let n : ℤ :=
    if r < 1/2 then f
    else if 1/2 < r then f + 1
    else if f % 2 = 0 then f else f + 1
  (n : ℚ) / 10

/-- Ascending sort of integer durations (`sorted(recovery_times)`). -/
def sortedAsc (l : List Int) : List Int := l.insertionSort (fun a b => a ≤ b)

/-- Python `statistics.mean` on a non-empty list of integers. -/
def pyMean (l : List Int) : ℚ := (l.sum : ℚ) / (l.length : ℚ)

/-- Python `statistics.median` on a non-empty list of integers. -/
def pyMedian (l : List Int) : ℚ :=
  let s := sortedAsc l
  let n := s.length
  if n % 2 = 1 then (s.getD (n / 2) 0 : ℚ)
  else ((s.getD (n / 2 - 1) 0 : ℚ) + (s.getD (n / 2) 0 : ℚ)) / 2

/-- Embedding of the summary record produced by `_compute_summary`. -/
structure RecoverySummary where
  count : Nat
  completedCycles : Nat
  meanRecovery_ms : Option ℚ
  medianRecovery_ms : Option ℚ
  minRecovery_ms : Option Int
  maxRecovery_ms : Option Int
  p95Recovery_ms : Option ℚ
  deriving DecidableEq, Repr

/-- Embedding of `RecoveryWatcher._compute_summary`. -/
def compute_summary (cycles : List RecoveryCycle) : RecoverySummary :=
  let recovery_times := cycles.filterMap (fun c => c.totalRecovery_ms)
  if recovery_times.isEmpty then
    { count := cycles.length, completedCycles := 0,
      meanRecovery_ms := none, medianRecovery_ms := none,
      minRecovery_ms := none, maxRecovery_ms := none, p95Recovery_ms := none }
  else
    let sorted_times := sortedAsc recovery_times
    let p95_idx := min (sorted_times.length * 95 / 100) (sorted_times.length - 1)
    { count := cycles.length,
      completedCycles := recovery_times.length,
      meanRecovery_ms := some (pyRound1 (pyMean recovery_times)),
      medianRecovery_ms := some (pyRound1 (pyMedian recovery_times)),
      minRecovery_ms := recovery_times.min?,
      maxRecovery_ms := recovery_times.max?,
      p95Recovery_ms := some (pyRound1 ((sorted_times.getD p95_idx 0 : Int) : ℚ)) }

/-! ### recovery.py — the watcher state machine

The watcher runs one background worker around a watch stream.  The model
state carries the cancellation flag (`_stop_event`), whether the underlying
stream object has been closed (`w.stop()` in the worker finally block), the
per-pod readiness dict, the open cycle, the finalized cycles, and the raw
event log.  The worker observes the flag only at the top of the loop body,
i.e. only when the stream delivers an event. -/

/-- A raw event log entry (`self._events`). -/
structure WatchEventRec where
  etype : String
  pod : String
  phase : String
  time : ℚ
  deriving DecidableEq, Repr

/-- The mutable state of a `RecoveryWatcher`. -/
structure WatcherState where
  stopFlagSet : Bool := false
  streamOpen : Bool := true
  podReady : List (String × Bool) := []
  pendingDeletion : Option ℚ := none
  cycles : List RecoveryCycle := []
  events : List WatchEventRec := []
  deriving DecidableEq, Repr

/-- Python `self._pod_ready.get(name, False)`. -/
def lookupReady (k : String) : List (String × Bool) → Bool
  | [] => false
  | p :: l => if p.1 == k then p.2 else lookupReady k l

/-- Python `self._pod_ready[name] = v` (update in place, else append). -/
def setReady (k : String) (v : Bool) : List (String × Bool) → List (String × Bool)
  | [] => [(k, v)]
  | p :: l => if p.1 == k then (k, v) :: l else p :: setReady k v l

/-- Python `self._pod_ready.pop(name, None)`. -/
def popReady (k : String) (l : List (String × Bool)) : List (String × Bool) :=
  l.filter (fun p => p.1 ≠ k)

/-- The pod snapshot fields the watch loop reads. -/
structure PodSnapshot where
  name : String
  phase : String
  readyCond : Bool
  scheduledAt : Option ℚ
  deriving DecidableEq, Repr

/-- Watch event types delivered by the stream. -/
inductive EventType where
  | added
  | modified
  | deleted
  deriving DecidableEq, Repr

/-- The string tag of an event type. -/
def EventType.tag : EventType → String
  | .added => "ADDED"
  | .modified => "MODIFIED"
  | .deleted => "DELETED"

/-- One pass of the `_watch_loop` body on a delivered event.  The flag is
checked first; when it is set the loop breaks and the finally block closes
the stream.  Otherwise the event is logged and folded into the cycle state
machine. -/
def handleEvent (s : WatcherState) (et : EventType) (p : PodSnapshot)
    (now : ℚ) : WatcherState :=
  if s.stopFlagSet then { s with streamOpen := false }
  else
    let s := { s with events := s.events ++
      [({ etype := et.tag, pod := p.name, phase := p.phase, time := now } : WatchEventRec)] }
    match et with
    | .deleted =>
        let s := { s with podReady := popReady p.name s.podReady }
        if s.pendingDeletion.isNone then { s with pendingDeletion := some now }
        else s
    | _ =>
        let was := lookupReady p.name s.podReady
        let isR := p.phase == "Running" && p.readyCond
        let s := { s with podReady := setReady p.name isR s.podReady }
        if isR && !was && s.pendingDeletion.isSome then
          { s with
            cycles := s.cycles ++ [finalize_cycle
              { deletionTime := s.pendingDeletion,
                scheduledTime := p.scheduledAt,
                readyTime := some now }],
            pendingDeletion := none }
        else s

/-- Embedding of `RecoveryWatcher.stop`, as executed on the caller thread:
set the cancellation flag, join the worker with `timeout=5` (a bounded wait
that touches no worker-owned state — in particular the stream object is
local to the worker and is not closed here), then finalize any still-open
cycle with null scheduled and ready times. -/
def watcherStop (s : WatcherState) : WatcherState :=
  let s1 := { s with stopFlagSet := true }
  match s1.pendingDeletion with
  | some t =>
      { s1 with
        cycles := s1.cycles ++ [finalize_cycle
          { deletionTime := some t, scheduledTime := none, readyTime := none }],
        pendingDeletion := none }
  | none => s1

/-! ### Lemmas about the worker-selection maximum -/

theorem keyLt_self (a : Bool × Int) : keyLt a a = false := by
  rcases a with ⟨b, x⟩
  cases b <;> simp [keyLt]

theorem keyLt_le_trans (a b c : Bool × Int) (h1 : keyLt a b = false)
    (h2 : keyLt b c = false) : keyLt a c = false := by
  rcases a with ⟨a1, a2⟩
  rcases b with ⟨b1, b2⟩
  rcases c with ⟨c1, c2⟩
  simp only [keyLt, Bool.or_eq_false_iff, Bool.and_eq_false_iff] at h1 h2 ⊢
  cases a1 <;> cases b1 <;> cases c1 <;> simp_all <;> omega

theorem keyLt_lt_le (a b c : Bool × Int) (h1 : keyLt a b = true)
    (h2 : keyLt c b = false) : keyLt c a = false := by
  rcases a with ⟨a1, a2⟩
  rcases b with ⟨b1, b2⟩
  rcases c with ⟨c1, c2⟩
  simp only [keyLt, Bool.or_eq_true, Bool.and_eq_true, Bool.or_eq_false_iff,
    Bool.and_eq_false_iff] at h1 h2 ⊢
  cases a1 <;> cases b1 <;> cases c1 <;> simp_all <;> omega

theorem pickFold_mem (best : NodeInfo) (l : List NodeInfo) :
    pickFold best l ∈ best :: l := by
  induction l generalizing best with
  | nil => simp [pickFold]
  | cons m rest ih =>
    simp only [pickFold]
    by_cases h : keyLt (workerKey best) (workerKey m) = true
    · simp only [h, if_true]
      have := ih m
      simp only [List.mem_cons] at this ⊢
      tauto
    · simp only [Bool.not_eq_true] at h
      simp only [h, Bool.false_eq_true, if_false]
      have := ih best
      simp only [List.mem_cons] at this ⊢
      tauto

theorem pickFold_max (l : List NodeInfo) : ∀ best, ∀ m ∈ best :: l,
    keyLt (workerKey (pickFold best l)) (workerKey m) = false := by
  induction l with
  | nil =>
    intro best m hm
    simp only [List.mem_cons, List.not_mem_nil, or_false] at hm
    subst hm
    simp only [pickFold]
    exact keyLt_self _
  | cons x rest ih =>
    intro best m hm
    simp only [pickFold]
    by_cases h : keyLt (workerKey best) (workerKey x) = true
    · simp only [h, if_true]
      rcases List.mem_cons.mp hm with hbm | hm2
      · rw [hbm]
        exact keyLt_lt_le _ _ _ h (ih x x (List.mem_cons_self _ _))
      · rcases List.mem_cons.mp hm2 with hxm | hrm
        · rw [hxm]
          exact ih x x (List.mem_cons_self _ _)
        · exact ih x m (List.mem_cons_of_mem _ hrm)
    · simp only [Bool.not_eq_true] at h
      simp only [h, Bool.false_eq_true, if_false]
      rcases List.mem_cons.mp hm with hbm | hm2
      · rw [hbm]
        exact ih best best (List.mem_cons_self _ _)
      · rcases List.mem_cons.mp hm2 with hxm | hrm
        · rw [hxm]
          exact keyLt_le_trans _ _ _ (ih best best (List.mem_cons_self _ _)) h
        · exact ih best m (List.mem_cons_of_mem _ hrm)

/-- The node picked by `_pick_best_worker` is one of the given nodes and its
key is maximal among them (Python `max` with the first maximal element). -/
theorem pick_best_worker_spec (nodes : List NodeInfo) (h : nodes ≠ []) :
    ∃ b ∈ nodes, pick_best_worker nodes = b.name ∧
      ∀ m ∈ nodes, keyLt (workerKey b) (workerKey m) = false := by
  cases nodes with
  | nil => exact absurd rfl h
  | cons n rest =>
    exact ⟨pickFold n rest, pickFold_mem n rest, rfl, pickFold_max rest n⟩

/-- Whenever some non-control-plane node is among the candidates, the node
picked by `_pick_best_worker` is itself non-control-plane. -/
theorem pick_best_worker_not_cp (nodes : List NodeInfo) (h : nodes ≠ [])
    (hm : ∃ m ∈ nodes, m.is_control_plane = false) :
    ∃ b ∈ nodes, pick_best_worker nodes = b.name ∧ b.is_control_plane = false := by
  obtain ⟨b, hb, he, hmax⟩ := pick_best_worker_spec nodes h
  obtain ⟨m, hm1, hmcp⟩ := hm
  refine ⟨b, hb, he, ?_⟩
  by_contra hcp
  have hbt : b.is_control_plane = true := by
    cases hb2 : b.is_control_plane
    · exact absurd hb2 hcp
    · rfl
  have hkey := hmax m hm1
  simp [workerKey, keyLt, hbt, hmcp] at hkey

/-! ### Concrete fixtures for witnesses and counterexamples -/

/-- A trivial generator instance used to instantiate the abstract `PRNG`
parameter in closed statements. -/
def unitPRNG : PRNG :=
  { State := Unit, init := fun _ => (), choiceIdx := fun _ _ => (0, ()) }

/-- A plain schedulable worker node with 4000m CPU. -/
def wNode1 : NodeInfo :=
  { name := "worker1", allocatable_cpu_millicores := 4000,
    allocatable_memory_bytes := 8589934592, conditions_ready := true }

/-- A plain schedulable worker node with 2000m CPU. -/
def wNode2 : NodeInfo :=
  { name := "worker2", allocatable_cpu_millicores := 2000,
    allocatable_memory_bytes := 4294967296, conditions_ready := true }

/-- A schedulable control-plane node (label set, no NoSchedule taint). -/
def cpNodeA : NodeInfo :=
  { name := "alpha", labels := [("node-role.kubernetes.io/control-plane", "")],
    allocatable_cpu_millicores := 2000, conditions_ready := true }

/-- A second schedulable control-plane node. -/
def cpNodeB : NodeInfo :=
  { name := "beta", labels := [("node-role.kubernetes.io/control-plane", "")],
    allocatable_cpu_millicores := 2000, conditions_ready := true }

/-- An unschedulable control-plane node (NoSchedule taint). -/
def taintedCp : NodeInfo :=
  { name := "gamma", conditions_ready := true,
    taints := [{ key := "node-role.kubernetes.io/control-plane", value := "",
                 effect := "NoSchedule" }] }

/-- A minimal deployment. -/
def dep0 : DeploymentInfo := { name := "web" }

/-- A heavier deployment (300m CPU, 256 MiB). -/
def dep1 : DeploymentInfo :=
  { name := "api", cpu_request_millicores := 300, memory_request_bytes := 268435456 }

/-- A lighter deployment (100m CPU, 64 MiB). -/
def dep2 : DeploymentInfo :=
  { name := "db", cpu_request_millicores := 100, memory_request_bytes := 67108864 }

theorem isEmpty_false_of_ne_nil {α : Type} (l : List α) (h : l ≠ []) :
    l.isEmpty = false := by
  cases l with
  | nil => exact absurd rfl h
  | cons a l => rfl

/-! ### Claim C7 — colocate picks the single best worker -/

/-- The verified behaviour of colocate without a caller target: one chosen
node `b`, drawn from the schedulable set, named by `_pick_best_worker`,
maximal for the key `(not control-plane, allocatable CPU)`, receiving every
workload; and `b` is non-control-plane whenever any schedulable
non-control-plane node exists. -/
def ColocateBestSpec (G : PRNG) (deps : List DeploymentInfo)
    (nodes : List NodeInfo) (seed : Option Int) : Prop :=
  ∃ b ∈ nodes.filter (fun n => n.is_schedulable),
    compute_assignments G .colocate deps nodes none seed =
      .ok { strategy := .colocate,
            assignments := deps.map (fun d => (d.name, b.name)) } ∧
    b.name = pick_best_worker (nodes.filter (fun n => n.is_schedulable)) ∧
    (∀ m ∈ nodes.filter (fun n => n.is_schedulable),
      keyLt (workerKey b) (workerKey m) = false) ∧
    ((∃ m ∈ nodes.filter (fun n => n.is_schedulable), m.is_control_plane = false) →
      b.is_control_plane = false)

/-- Claim C7 (amended): for every non-empty schedulable-node set, colocate
without a caller-given target maps every workload to exactly one node — the
schedulable node maximizing `(not control-plane, allocatable CPU)` in that
priority order — so a non-control-plane schedulable node is chosen whenever
one exists, even when all nodes report equal allocatable CPU; a schedulable
control-plane node is chosen only when no non-control-plane schedulable node
exists.  (The original wording "only when it is the sole schedulable node"
fails when several control-plane nodes are schedulable, see the
counterexample.) -/
theorem C7_colocate_best (G : PRNG) (deps : List DeploymentInfo)
    (nodes : List NodeInfo) (seed : Option Int)
    (h : nodes.filter (fun n => n.is_schedulable) ≠ []) :
    ColocateBestSpec G deps nodes seed := by
  obtain ⟨b, hb, hname, hmax⟩ :=
    pick_best_worker_spec (nodes.filter (fun n => n.is_schedulable)) h
  refine ⟨b, hb, ?_, hname.symm, hmax, ?_⟩
  · simp only [compute_assignments,
      isEmpty_false_of_ne_nil _ h, Bool.false_eq_true, if_false,
      compute_colocate, truthyTarget, Bool.false_eq_true, if_false, hname]
  · intro hex
    by_contra hcp
    have hbt : b.is_control_plane = true := by
      cases hb2 : b.is_control_plane
      · exact absurd hb2 hcp
      · rfl
    obtain ⟨m, hm1, hmcp⟩ := hex
    have hkey := hmax m hm1
    simp [workerKey, keyLt, hbt, hmcp] at hkey

/-- Witness for C7: on two plain workers the amended property holds. -/
theorem C7_colocate_best_witness :
    ColocateBestSpec unitPRNG [dep0] [wNode1, wNode2] none :=
  C7_colocate_best unitPRNG [dep0] [wNode1, wNode2] none (by decide)

/-- Counterexample to C7 as stated: with two schedulable control-plane nodes
(an HA control plane with no workers), colocate picks a control-plane node
that is not the sole schedulable node. -/
theorem C7_counterexample :
    NodeInfo.is_control_plane cpNodeA = true ∧
    ([cpNodeA, cpNodeB].filter (fun n => n.is_schedulable)).length = 2 ∧
    compute_assignments unitPRNG .colocate [dep0] [cpNodeA, cpNodeB] none none =
      .ok { strategy := .colocate, assignments := [("web", "alpha")] } := by
  decide

/-! ### Claim C5 — planner error behaviour -/

/-- Claim C5 (amended): `compute_assignments` fails with the
"no schedulable nodes" error whenever the schedulable subset is empty, for
every strategy; and, for the colocate strategy (the only strategy that
consumes a target node), fails with the "target node not found" error when a
(truthy) target node is given that is absent from the schedulable-node name
set.  Both failures return `Except.error`, hence abort the call and produce
no assignment.  (As stated, the unknown-node failure quantified over every
strategy; the other strategies ignore the target argument, see the
counterexample.) -/
theorem C5_planner_errors (G : PRNG) (strategy : PlacementStrategy)
    (deps : List DeploymentInfo) (nodes : List NodeInfo)
    (target : Option String) (seed : Option Int) :
    (nodes.filter (fun n => n.is_schedulable) = [] →
      compute_assignments G strategy deps nodes target seed =
        .error noSchedulableMsg) ∧
    (∀ t, target = some t → t ≠ "" → strategy = .colocate →
      nodes.filter (fun n => n.is_schedulable) ≠ [] →
      t ∉ (nodes.filter (fun n => n.is_schedulable)).map (fun n => n.name) →
      compute_assignments G strategy deps nodes target seed =
        .error (targetNotFoundMsg t
          ((nodes.filter (fun n => n.is_schedulable)).map (fun n => n.name)))) := by
  constructor
  · intro hnil
    simp [compute_assignments, hnil]
  · intro t ht htne hstrat hne hmem
    subst ht
    subst hstrat
    have hte : t.isEmpty = false := by
      cases hti : t.isEmpty
      · rfl
      · exact absurd ((String.isEmpty_iff t).mp hti) htne
    simp [compute_assignments, isEmpty_false_of_ne_nil _ hne,
      compute_colocate, truthyTarget, hte]
    intro x hx hsx hxt
    exact hmem (List.mem_map.mpr
      ⟨x, List.mem_filter.mpr ⟨hx, by simp [hsx]⟩, hxt⟩)

/-- Witness for C5: a tainted-control-plane-only cluster yields the
no-schedulable-nodes error, and a bogus colocate target yields the
target-not-found error. -/
theorem C5_planner_errors_witness :
    compute_assignments unitPRNG .colocate [dep0] [taintedCp] none none =
      .error noSchedulableMsg ∧
    compute_assignments unitPRNG .colocate [dep0] [wNode1] (some "ghost") none =
      .error (targetNotFoundMsg "ghost" ["worker1"]) := by
  refine ⟨(C5_planner_errors unitPRNG .colocate [dep0] [taintedCp] none none).1
    (by decide), ?_⟩
  have h2 := (C5_planner_errors unitPRNG .colocate [dep0] [wNode1]
    (some "ghost") none).2 "ghost" rfl (by decide) rfl (by decide) (by decide)
  simpa using h2

/-- Counterexample to C5 as stated: for the spread strategy a given target
node absent from the schedulable set is silently ignored — the call
succeeds instead of failing with the unknown-node error. -/
theorem C5_counterexample :
    truthyTarget (some "ghost") = true ∧
    "ghost" ∉ ([wNode1].filter (fun n => n.is_schedulable)).map (fun n => n.name) ∧
    compute_assignments unitPRNG .spread [dep0] [wNode1] (some "ghost") none =
      .ok { strategy := .spread, assignments := [("web", "worker1")] } := by
  decide

/-! ### Claim C6 — random strategy determinism -/

/-- Claim C6: the random strategy is deterministic for a fixed seed and
fixed input ordering — two calls with the same generator, the same seed,
the same workload list and the same node list produce identical results.
The embedding makes the content precise: `_compute_random` re-seeds a fresh
local generator from the seed argument and threads it through the workload
list in order, so the result is a pure function of (seed, workload order,
node order), for every generator instantiation (in particular the real
Mersenne-Twister one). -/
theorem C6_random_deterministic (G : PRNG)
    (deps1 deps2 : List DeploymentInfo) (nodes1 nodes2 : List NodeInfo)
    (s1 s2 : Int) (hd : deps1 = deps2) (hn : nodes1 = nodes2) (hs : s1 = s2) :
    compute_assignments G .random deps1 nodes1 none (some s1) =
      compute_assignments G .random deps2 nodes2 none (some s2) := by
  subst hd
  subst hn
  subst hs
  rfl

/-- Witness for C6, with the concrete evaluation of one of the two equal
calls. -/
theorem C6_random_deterministic_witness :
    compute_assignments unitPRNG .random [dep0, dep1] [wNode1, wNode2] none (some 42) =
      compute_assignments unitPRNG .random [dep0, dep1] [wNode1, wNode2] none (some 42) ∧
    compute_assignments unitPRNG .random [dep0, dep1] [wNode1, wNode2] none (some 42) =
      .ok { strategy := .random,
            assignments := [("web", "worker1"), ("api", "worker1")],
            seed := some 42 } :=
  ⟨C6_random_deterministic unitPRNG [dep0, dep1] [dep0, dep1]
    [wNode1, wNode2] [wNode1, wNode2] 42 42 rfl rfl rfl, by decide⟩

/-! ### Claim C8 — applying an assignment -/

/-- Modelled from the spec: the "stable, built-in node-identity label" of
the spec glossary ("a stable, built-in label uniquely identifying a node,
used as the node-affinity selector key").  Kubernetes ships exactly one
such built-in node-identity label, `kubernetes.io/hostname` (the legacy
spelling `beta.kubernetes.io/hostname` included for completeness).  This
refinement definition follows the spec wording and is compared against the
key the source actually uses. -/
def specBuiltinNodeIdentityLabels : List String :=
  ["kubernetes.io/hostname", "beta.kubernetes.io/hostname"]

theorem mem_firstOccAux (x : String) :
    ∀ (l seen : List String), x ∈ firstOccAux seen l ↔ x ∈ l ∧ x ∉ seen := by
  intro l
  induction l with
  | nil => intro seen; simp [firstOccAux]
  | cons a l ih =>
    intro seen
    simp only [firstOccAux]
    by_cases hc : seen.contains a
    · have ha : a ∈ seen := List.mem_of_elem_eq_true hc
      rw [if_pos hc, ih seen]
      constructor
      · rintro ⟨hxl, hxs⟩
        exact ⟨List.mem_cons_of_mem _ hxl, hxs⟩
      · rintro ⟨hxal, hxs⟩
        rcases List.mem_cons.mp hxal with hxa | hxl
        · exact absurd (hxa ▸ ha) hxs
        · exact ⟨hxl, hxs⟩
    · have ha : a ∉ seen := fun hmem => hc (List.elem_eq_true_of_mem hmem)
      rw [if_neg hc]
      simp only [List.mem_cons, ih (a :: seen)]
      constructor
      · rintro (hxa | ⟨hxl, hxs⟩)
        · exact ⟨Or.inl hxa, hxa ▸ ha⟩
        · exact ⟨Or.inr hxl, fun hm => hxs (Or.inr hm)⟩
      · rintro ⟨hxal, hxs⟩
        rcases hxal with hxa | hxl
        · exact Or.inl hxa
        · by_cases hxa : x = a
          · exact Or.inl hxa
          · exact Or.inr ⟨hxl, fun hm => hm.elim hxa hxs⟩

theorem mem_firstOccurrences (x : String) (l : List String) :
    x ∈ firstOccurrences l ↔ x ∈ l := by
  rw [firstOccurrences, mem_firstOccAux]
  simp

/-- Claim C8 (amended): applying a NodeAssignment patches, for each
(workload, node) pair, the workload pod template with a hard node selector
keyed on the engine's own fixed placement label
(`chaosprobe.io/placement-zone`) — a custom label that the enforcer itself
first stamps onto every assigned node, value `zone-<node>`, rather than a
built-in node-identity label — whose value identifies the assigned node
injectively, and stamps the workload with the annotation recording the
applied strategy name.  The patch list contains exactly one such patch per
assignment pair, and the node-label operations cover exactly the assigned
nodes.  (The original wording "a stable, built-in node-identity label"
fails on the code, see the counterexample.) -/
theorem C8_apply_assignment (a : NodeAssignment) :
    (∀ dep node, (dep, node) ∈ a.assignments →
      ({ target := dep, selectorKey := PLACEMENT_LABEL_KEY,
         selectorValue := zoneFor node,
         strategyAnnotValue := a.strategy.value } : PlacementPatch)
        ∈ (apply_assignment a).2) ∧
    (∀ q ∈ (apply_assignment a).2, ∃ p ∈ a.assignments,
      q = { target := p.1, selectorKey := PLACEMENT_LABEL_KEY,
            selectorValue := zoneFor p.2,
            strategyAnnotValue := a.strategy.value }) ∧
    (∀ n1 n2, zoneFor n1 = zoneFor n2 → n1 = n2) ∧
    (∀ dep node, (dep, node) ∈ a.assignments →
      (node, zoneFor node) ∈ (apply_assignment a).1) ∧
    (∀ q ∈ (apply_assignment a).1, ∃ dep node, (dep, node) ∈ a.assignments ∧
      q = (node, zoneFor node)) := by
  refine ⟨?_, ?_, ?_, ?_, ?_⟩
  · intro dep node hmem
    simp only [apply_assignment]
    exact List.mem_map_of_mem _ hmem
  · intro q hq
    simp only [apply_assignment, List.mem_map] at hq
    obtain ⟨p, hp, he⟩ := hq
    exact ⟨p, hp, he.symm⟩
  · intro n1 n2 h
    have hd : ("zone-" ++ n1).data = ("zone-" ++ n2).data := by
      simpa [zoneFor] using congrArg String.data h
    simp only [String.data_append] at hd
    apply String.ext
    exact List.append_cancel_left hd
  · intro dep node hmem
    simp only [apply_assignment]
    apply List.mem_map_of_mem
    rw [mem_firstOccurrences]
    exact List.mem_map_of_mem _ hmem
  · intro q hq
    simp only [apply_assignment, List.mem_map] at hq
    obtain ⟨n, hn, he⟩ := hq
    rw [mem_firstOccurrences, List.mem_map] at hn
    obtain ⟨p, hp, hpn⟩ := hn
    refine ⟨p.1, p.2, hp, ?_⟩
    rw [hpn]
    exact he.symm

/-- Witness for C8 at a concrete one-pair assignment: both the deployment
patch and the node-label operation are produced. -/
theorem C8_apply_assignment_witness :
    ({ target := "web", selectorKey := PLACEMENT_LABEL_KEY,
       selectorValue := zoneFor "worker1",
       strategyAnnotValue := PlacementStrategy.colocate.value } : PlacementPatch)
      ∈ (apply_assignment
          { strategy := .colocate, assignments := [("web", "worker1")] }).2 ∧
    ("worker1", zoneFor "worker1")
      ∈ (apply_assignment
          { strategy := .colocate, assignments := [("web", "worker1")] }).1 :=
  ⟨(C8_apply_assignment
      { strategy := .colocate, assignments := [("web", "worker1")] }).1
      "web" "worker1" (by decide),
   (C8_apply_assignment
      { strategy := .colocate, assignments := [("web", "worker1")] }).2.2.2.1
      "web" "worker1" (by decide)⟩

/-- Counterexample to C8 as stated: the selector key the enforcer writes is
its own custom label `chaosprobe.io/placement-zone`, not a stable built-in
node-identity label — it is not among the built-in node-identity labels the
spec glossary describes, a plain node does not carry it before enforcement,
and the enforcer must itself stamp it onto the assigned node (the node-label
operation list is non-empty). -/
theorem C8_counterexample :
    (∀ q ∈ (apply_assignment
        { strategy := .colocate, assignments := [("web", "worker1")] }).2,
      q.selectorKey = PLACEMENT_LABEL_KEY) ∧
    PLACEMENT_LABEL_KEY ∉ specBuiltinNodeIdentityLabels ∧
    hasKey PLACEMENT_LABEL_KEY wNode1.labels = false ∧
    (apply_assignment
        { strategy := .colocate, assignments := [("web", "worker1")] }).1 =
      [("worker1", "zone-worker1")] := by
  decide

/-! ### Claim C10 — empty workload list -/

/-- Claim C10: for every strategy and every node list with at least one
schedulable node, `compute_assignments` on an empty workload list returns
normally with an empty workload-to-node mapping. -/
theorem C10_empty_deployments (G : PRNG) (strategy : PlacementStrategy)
    (nodes : List NodeInfo) (seed : Option Int)
    (h : nodes.filter (fun n => n.is_schedulable) ≠ []) :
    ∃ A, compute_assignments G strategy [] nodes none seed = .ok A ∧
      A.assignments = [] := by
  have he := isEmpty_false_of_ne_nil _ h
  cases strategy with
  | colocate =>
    refine ⟨{ strategy := .colocate, assignments := [] }, ?_, rfl⟩
    simp [compute_assignments, he, compute_colocate, truthyTarget]
  | spread =>
    refine ⟨{ strategy := .spread, assignments := [] }, ?_, rfl⟩
    simp [compute_assignments, he, compute_spread]
  | random =>
    refine ⟨{ strategy := .random, assignments := [], seed := seed }, ?_, rfl⟩
    simp [compute_assignments, he, compute_random]
  | antagonistic =>
    refine ⟨{ strategy := .antagonistic, assignments := [] }, ?_, rfl⟩
    simp only [compute_assignments, he, Bool.false_eq_true, if_false,
      compute_antagonistic, sortByScoreDesc, List.insertionSort]
    split <;> simp

/-- Witness for C10 on a concrete single-node cluster. -/
theorem C10_empty_deployments_witness :
    ∃ A, compute_assignments unitPRNG .antagonistic [] [wNode1] none none = .ok A ∧
      A.assignments = [] :=
  C10_empty_deployments unitPRNG .antagonistic [wNode1] none (by decide)

/-! ### Claims C3 and C9 — clear_placement frame properties -/

theorem clearStep_patch_target (f : Option (List String)) (x : Deployment)
    (p : ClearPatch) (h : (clearStep f x).2 = some p) : p.target = x.name := by
  unfold clearStep at h
  split_ifs at h with h1 h2 h3
  all_goals simp_all
  rw [← h]

theorem clearStep_fst_name (f : Option (List String)) (x : Deployment) :
    (clearStep f x).1.name = x.name := by
  unfold clearStep
  split_ifs <;> rfl

theorem mem_clear_patches (f : Option (List String)) (deps : List Deployment)
    (p : ClearPatch) :
    p ∈ (clear_placement f deps).2.1 ↔ ∃ x ∈ deps, (clearStep f x).2 = some p := by
  simp [clear_placement, List.mem_filterMap, List.mem_map]

theorem mem_clear_states (f : Option (List String)) (deps : List Deployment)
    (q : Deployment) :
    q ∈ (clear_placement f deps).1 ↔ ∃ x ∈ deps, (clearStep f x).1 = q := by
  simp [clear_placement, List.mem_map]

/-- Claim C3: `clear_placement` only ever mutates deployments carrying the
managed marker: a deployment without it is skipped before any patch is
built — its state is returned unchanged (selector and all metadata intact),
no patch in the issued batch targets it, and its name never appears in the
returned cleared list. -/
theorem C3_clear_placement_unmanaged_untouched (f : Option (List String))
    (deps : List Deployment) (hnodup : (deps.map (fun d => d.name)).Nodup)
    (d : Deployment) (hd : d ∈ deps)
    (hman : hasKey MANAGED_ANNOT_KEY d.annots = false) :
    clearStep f d = (d, none) ∧
    (∀ q ∈ (clear_placement f deps).1, q.name = d.name → q = d) ∧
    (∀ p ∈ (clear_placement f deps).2.1, p.target ≠ d.name) ∧
    d.name ∉ (clear_placement f deps).2.2 := by
  have hinj : ∀ x ∈ deps, x.name = d.name → x = d := by
    intro x hx hxe
    exact List.inj_on_of_nodup_map hnodup hx hd hxe
  have h1 : clearStep f d = (d, none) := by
    unfold clearStep
    split_ifs with hA hB hC <;> simp_all [hman]
  have h3 : ∀ p ∈ (clear_placement f deps).2.1, p.target ≠ d.name := by
    intro p hp hpt
    obtain ⟨x, hx, he⟩ := (mem_clear_patches f deps p).mp hp
    have hxd : x = d := hinj x hx ((clearStep_patch_target f x p he) ▸ hpt)
    rw [hxd, h1] at he
    exact Option.noConfusion he
  refine ⟨h1, ?_, h3, ?_⟩
  · intro q hq hqn
    obtain ⟨x, hx, he⟩ := (mem_clear_states f deps q).mp hq
    have hxn : x.name = d.name := by
      rw [← clearStep_fst_name f x, he, hqn]
    have hxd : x = d := hinj x hx hxn
    rw [hxd, h1] at he
    exact he.symm
  · intro hmem
    simp only [clear_placement, List.mem_map] at hmem
    obtain ⟨p, hp, hpt⟩ := hmem
    exact h3 p ((mem_clear_patches f deps p).mpr
      (by simpa [clear_placement, List.mem_filterMap] using hp)) hpt

/-- Witness for C3 at a concrete two-deployment namespace: the unmanaged
deployment (with a user selector) is untouched while a managed one exists. -/
theorem C3_clear_placement_unmanaged_untouched_witness :
    clearStep none
      { name := "user-app", annots := [],
        node_selector := [("disktype", "ssd")] } =
      ({ name := "user-app", annots := [],
         node_selector := [("disktype", "ssd")] }, none) :=
  (C3_clear_placement_unmanaged_untouched none
    [{ name := "user-app", annots := [], node_selector := [("disktype", "ssd")] },
     { name := "managed-app", annots := [(MANAGED_ANNOT_KEY, "colocate")],
       node_selector := [(PLACEMENT_LABEL_KEY, "zone-worker1")] }]
    (by decide)
    { name := "user-app", annots := [], node_selector := [("disktype", "ssd")] }
    (by decide) (by decide)).1

/-- Claim C9: a deployment that carries the managed marker but whose
pod-template node selector does not contain the placement label key is not
patched by `clear_placement`: its state (including the marker) is returned
unchanged, no patch targets it, and its name is not in the cleared list. -/
theorem C9_clear_placement_managed_without_label (f : Option (List String))
    (deps : List Deployment) (hnodup : (deps.map (fun d => d.name)).Nodup)
    (d : Deployment) (hd : d ∈ deps)
    (hman : hasKey MANAGED_ANNOT_KEY d.annots = true)
    (hsel : hasKey PLACEMENT_LABEL_KEY d.node_selector = false) :
    clearStep f d = (d, none) ∧
    (clearStep f d).1.annots = d.annots ∧
    (∀ p ∈ (clear_placement f deps).2.1, p.target ≠ d.name) ∧
    d.name ∉ (clear_placement f deps).2.2 := by
  have hinj : ∀ x ∈ deps, x.name = d.name → x = d := by
    intro x hx hxe
    exact List.inj_on_of_nodup_map hnodup hx hd hxe
  have h1 : clearStep f d = (d, none) := by
    unfold clearStep
    split_ifs with hA hB hC <;> simp_all [hman, hsel]
  have h3 : ∀ p ∈ (clear_placement f deps).2.1, p.target ≠ d.name := by
    intro p hp hpt
    obtain ⟨x, hx, he⟩ := (mem_clear_patches f deps p).mp hp
    have hxd : x = d := hinj x hx ((clearStep_patch_target f x p he) ▸ hpt)
    rw [hxd, h1] at he
    exact Option.noConfusion he
  refine ⟨h1, by rw [h1], h3, ?_⟩
  intro hmem
  simp only [clear_placement, List.mem_map] at hmem
  obtain ⟨p, hp, hpt⟩ := hmem
  exact h3 p ((mem_clear_patches f deps p).mpr
    (by simpa [clear_placement, List.mem_filterMap] using hp)) hpt

/-- Witness for C9: a managed deployment whose selector lacks the placement
key is skipped. -/
theorem C9_clear_placement_managed_without_label_witness :
    clearStep none
      { name := "odd-app", annots := [(MANAGED_ANNOT_KEY, "spread")],
        node_selector := [] } =
      ({ name := "odd-app", annots := [(MANAGED_ANNOT_KEY, "spread")],
         node_selector := [] }, none) :=
  (C9_clear_placement_managed_without_label none
    [{ name := "odd-app", annots := [(MANAGED_ANNOT_KEY, "spread")],
       node_selector := [] }]
    (by decide)
    { name := "odd-app", annots := [(MANAGED_ANNOT_KEY, "spread")],
      node_selector := [] }
    (by decide) (by decide) (by decide)).1

/-! ### Claim C4 — recovery summary statistics -/

theorem pyRound1_intCast (k : ℤ) : pyRound1 (k : ℚ) = (k : ℚ) := by
  have h1 : (10 : ℚ) * (k : ℚ) = ((10 * k : ℤ) : ℚ) := by push_cast; ring
  simp only [pyRound1, h1, Int.floor_intCast, sub_self]
  norm_num

/-- The verified contract of `_compute_summary` on an arbitrary cycle list:
`count` is the total cycle count (incomplete ones included),
`completedCycles` the number of cycles with a non-null total-recovery
duration; with no completed duration every statistic is null; with at least
one, p95 is the ascending-sorted completed durations indexed at
`floor(completed * 95 / 100)` clamped to the last valid index. -/
def SummarySpec (cycles : List RecoveryCycle) : Prop :=
  (compute_summary cycles).count = cycles.length ∧
  (compute_summary cycles).completedCycles =
    (cycles.filterMap (fun c => c.totalRecovery_ms)).length ∧
  (cycles.filterMap (fun c => c.totalRecovery_ms) = [] →
    (compute_summary cycles).meanRecovery_ms = none ∧
    (compute_summary cycles).medianRecovery_ms = none ∧
    (compute_summary cycles).minRecovery_ms = none ∧
    (compute_summary cycles).maxRecovery_ms = none ∧
    (compute_summary cycles).p95Recovery_ms = none) ∧
  (cycles.filterMap (fun c => c.totalRecovery_ms) ≠ [] →
    (compute_summary cycles).p95Recovery_ms =
      some (((sortedAsc (cycles.filterMap (fun c => c.totalRecovery_ms))).getD
        (min ((cycles.filterMap (fun c => c.totalRecovery_ms)).length * 95 / 100)
          ((cycles.filterMap (fun c => c.totalRecovery_ms)).length - 1)) 0 : Int) : ℚ))

/-- Five recovery cycles whose completed total durations are
100, 200, 300, 400, 500 milliseconds. -/
def exCycles : List RecoveryCycle :=
  [finalize_cycle { deletionTime := some 0, readyTime := some (1/10) },
   finalize_cycle { deletionTime := some 0, readyTime := some (2/10) },
   finalize_cycle { deletionTime := some 0, readyTime := some (3/10) },
   finalize_cycle { deletionTime := some 0, readyTime := some (4/10) },
   finalize_cycle { deletionTime := some 0, readyTime := some (5/10) }]

theorem exCycles_totals :
    exCycles.filterMap (fun c => c.totalRecovery_ms) =
      [100, 200, 300, 400, 500] := by
  simp only [exCycles, finalize_cycle, durationMs, List.filterMap, truncQ]
  norm_num

/-- Claim C4: the computed summary satisfies the count/completed contract,
the all-null empty case, and the nearest-rank p95 rule, on every cycle
list; and on completed durations [100, 200, 300, 400, 500] ms it yields
mean 300, median 300, min 100, max 500 and p95 500 (nearest-rank index
`floor(5 * 0.95) = 4`). -/
theorem C4_compute_summary : (∀ cycles, SummarySpec cycles) ∧
    compute_summary exCycles =
      { count := 5, completedCycles := 5, meanRecovery_ms := some 300,
        medianRecovery_ms := some 300, minRecovery_ms := some 100,
        maxRecovery_ms := some 500, p95Recovery_ms := some 500 } := by
  constructor
  · intro cycles
    by_cases hL : cycles.filterMap (fun c => c.totalRecovery_ms) = []
    · refine ⟨?_, ?_, fun _ => ?_, fun hne => absurd hL hne⟩ <;>
        simp [compute_summary, hL]
    · have hne : (cycles.filterMap (fun c => c.totalRecovery_ms)).isEmpty = false :=
        isEmpty_false_of_ne_nil _ hL
      refine ⟨?_, ?_, fun he => absurd he hL, fun _ => ?_⟩
      · simp [compute_summary, hne]
      · simp [compute_summary, hne]
      · simp only [compute_summary, hne, Bool.false_eq_true, if_false]
        rw [pyRound1_intCast]
        simp [sortedAsc, List.length_insertionSort]
  · have ht := exCycles_totals
    have hlen : exCycles.length = 5 := by rfl
    have hsort : sortedAsc [100, 200, 300, 400, 500] = [100, 200, 300, 400, 500] := by
      decide
    have hmean : pyMean [100, 200, 300, 400, 500] = ((300 : ℤ) : ℚ) := by
      norm_num [pyMean]
    have hmed : pyMedian [100, 200, 300, 400, 500] = ((300 : ℤ) : ℚ) := by
      norm_num [pyMedian, hsort]
    have hmin : ([100, 200, 300, 400, 500] : List Int).min? = some 100 := by decide
    have hmax : ([100, 200, 300, 400, 500] : List Int).max? = some 500 := by decide
    have hgetD : ([100, 200, 300, 400, 500] : List Int).getD
        (min (([100, 200, 300, 400, 500] : List Int).length * 95 / 100)
          (([100, 200, 300, 400, 500] : List Int).length - 1)) 0 = 500 := by decide
    simp only [compute_summary, ht, hlen, hsort, hmean, hmed, hmin, hmax, hgetD,
      pyRound1_intCast]
    norm_num

/-! ### Claim C2 — watcher stop() -/

/-- A watcher state with an open recovery cycle (deletion observed at t = 7)
and the worker blocked inside the watch stream (stream open, flag clear). -/
def stuckState : WatcherState :=
  { stopFlagSet := false, streamOpen := true, podReady := [("pod-a", false)],
    pendingDeletion := some 7, cycles := [], events := [] }

/-- A replacement pod becoming ready (a later delivered event). -/
def readyPod : PodSnapshot :=
  { name := "pod-a", phase := "Running", readyCond := true, scheduledAt := none }

/-- Claim C2, evaluated at the failing input: calling `stop()` on
`stuckState` does set the cancellation flag and does finalize the open
cycle as one incomplete cycle with null scheduled and ready times — the
cycle stays in the list and counts toward the total count (count 1,
completed 0) — but the underlying watch stream is NOT terminated by
`stop()`: `streamOpen` is still true afterwards, because the only call
closing the stream (`w.stop()` in the worker finally block) runs after the
stream delivers a further event, as the last conjunct shows.  This
contradicts the claim (and spec section 5), which require `stop()` itself
to explicitly terminate the stream; with no further event the worker stays
blocked and the bounded `join(timeout=5)` merely times out. -/
theorem C2_stop_flag_cycle_but_stream_left_open :
    watcherStop stuckState =
      { stopFlagSet := true, streamOpen := true, podReady := [("pod-a", false)],
        pendingDeletion := none,
        cycles := [{ deletionTime := some 7, scheduledTime := none,
                     readyTime := none, deletionToScheduled_ms := none,
                     scheduledToReady_ms := none, totalRecovery_ms := none }],
        events := [] } ∧
    (compute_summary (watcherStop stuckState).cycles).count = 1 ∧
    (compute_summary (watcherStop stuckState).cycles).completedCycles = 0 ∧
    (watcherStop stuckState).streamOpen = true ∧
    handleEvent (watcherStop stuckState) .modified readyPod 8 =
      { watcherStop stuckState with streamOpen := false } := by
  decide

/-! ### Claim C1 — the antagonistic strategy -/

instance : Inhabited DeploymentInfo := ⟨{ name := "" }⟩

theorem exists_ne_of_nodup_two (l : List String) (h2 : 2 ≤ l.length)
    (hn : l.Nodup) (a : String) : ∃ x ∈ l, x ≠ a := by
  match l, h2 with
  | x :: y :: rest, _ =>
    by_cases hx : x = a
    · refine ⟨y, by simp, fun hy => ?_⟩
      exact (List.nodup_cons.mp hn).1 (by rw [hx, ← hy]; exact List.mem_cons_self _ _)
    · exact ⟨x, by simp, hx⟩

/-- The verified behaviour of the antagonistic strategy.  With at least two
schedulable nodes: the call succeeds with the assignment built over the
stable descending sort of the workloads by score (CPU millicores plus
memory in MiB), whose entry `i` maps the `i`-th heaviest workload to the
heavy node when `i < midpoint = max 1 (n / 2)` and otherwise round-robins
over the other schedulable node names at cyclic position
`i % (number of other nodes)`; the sorted list is a permutation of the
workloads sorted descending by score; the heavy-set and light-set names
partition the workload names exactly; the heavy node is the
`_pick_best_worker` choice, never control-plane when a non-control-plane
schedulable node exists.  With exactly one schedulable node every workload
is mapped to that sole node. -/
def AntagonisticSpec (G : PRNG) (deps : List DeploymentInfo)
    (nodes : List NodeInfo) (seed : Option Int) : Prop :=
  let schedulable := nodes.filter (fun n => n.is_schedulable)
  let names := schedulable.map (fun n => n.name)
  let sorted := sortByScoreDesc deps
  let midpoint := max 1 (sorted.length / 2)
  let heavyN := pick_best_worker schedulable
  let lightNs := names.filter (fun n => n ≠ heavyN)
  let A := sorted.enum.map (fun p =>
    (p.2.name, if p.1 < midpoint then heavyN
               else lightNs.getD (p.1 % lightNs.length) ""))
  (2 ≤ names.length →
    compute_assignments G .antagonistic deps nodes none seed =
      .ok { strategy := .antagonistic, assignments := A } ∧
    List.Sorted antRel sorted ∧
    sorted.Perm deps ∧
    ((sorted.take midpoint).map (fun d => d.name) ++
      (sorted.drop midpoint).map (fun d => d.name)).Perm
      (deps.map (fun d => d.name)) ∧
    List.Disjoint ((sorted.take midpoint).map (fun d => d.name))
      ((sorted.drop midpoint).map (fun d => d.name)) ∧
    (∀ i, i < sorted.length →
      A.getD i ("", "") =
        ((sorted.getD i default).name,
         if i < midpoint then heavyN
         else lightNs.getD (i % lightNs.length) "")) ∧
    (∃ b ∈ schedulable, heavyN = b.name ∧
      ((∃ m ∈ schedulable, m.is_control_plane = false) →
        b.is_control_plane = false))) ∧
  (names.length = 1 →
    ∃ n0, names = [n0] ∧
      compute_assignments G .antagonistic deps nodes none seed =
        .ok { strategy := .antagonistic,
              assignments := deps.map (fun d => (d.name, n0)) })

/-- Claim C1 (with the standard cluster invariant that node names and
deployment names are unique). -/
theorem C1_antagonistic (G : PRNG) (deps : List DeploymentInfo)
    (nodes : List NodeInfo) (seed : Option Int)
    (hdn : (deps.map (fun d => d.name)).Nodup)
    (hnn : ((nodes.filter (fun n => n.is_schedulable)).map
      (fun n => n.name)).Nodup) :
    AntagonisticSpec G deps nodes seed := by
  simp only [AntagonisticSpec]
  constructor
  · intro h2
    have hsched_ne : nodes.filter (fun n => n.is_schedulable) ≠ [] := by
      intro h0
      rw [h0] at h2
      simp at h2
    obtain ⟨b, hbmem, hbname, hbmax⟩ :=
      pick_best_worker_spec (nodes.filter (fun n => n.is_schedulable)) hsched_ne
    obtain ⟨x, hxmem, hxne⟩ := exists_ne_of_nodup_two _ h2 hnn
      (pick_best_worker (nodes.filter (fun n => n.is_schedulable)))
    have hlight_ne :
        ((nodes.filter (fun n => n.is_schedulable)).map (fun n => n.name)).filter
          (fun n => n ≠ pick_best_worker (nodes.filter (fun n => n.is_schedulable)))
          ≠ [] := by
      exact List.ne_nil_of_mem (List.mem_filter.mpr ⟨hxmem, by simp [hxne]⟩)
    have hperm : (sortByScoreDesc deps).Perm deps :=
      List.perm_insertionSort antRel deps
    have hsplit :
        ((sortByScoreDesc deps).take (max 1 ((sortByScoreDesc deps).length / 2))).map
            (fun d => d.name) ++
          ((sortByScoreDesc deps).drop (max 1 ((sortByScoreDesc deps).length / 2))).map
            (fun d => d.name) =
          (sortByScoreDesc deps).map (fun d => d.name) := by
      rw [← List.map_append, List.take_append_drop]
    have hnames_nodup : ((sortByScoreDesc deps).map (fun d => d.name)).Nodup :=
      ((hperm.map _).nodup_iff).mpr hdn
    refine ⟨?_, List.sorted_insertionSort antRel deps, hperm, ?_, ?_, ?_, ?_⟩
    · simp only [compute_assignments, isEmpty_false_of_ne_nil _ hsched_ne,
        Bool.false_eq_true, if_false, compute_antagonistic]
      rw [if_neg (by omega :
        ¬ ((nodes.filter (fun n => n.is_schedulable)).map (fun n => n.name)).length < 2)]
      rw [isEmpty_false_of_ne_nil _ hlight_ne]
      simp
    · rw [hsplit]
      exact hperm.map _
    · have := hsplit ▸ hnames_nodup
      exact ((List.nodup_append.mp this).2.2)
    · intro i hi
      have hAlen :
          ((sortByScoreDesc deps).enum.map (fun p =>
            (p.2.name,
             if p.1 < max 1 ((sortByScoreDesc deps).length / 2) then
               pick_best_worker (nodes.filter (fun n => n.is_schedulable))
             else
               (((nodes.filter (fun n => n.is_schedulable)).map (fun n => n.name)).filter
                 (fun n => n ≠ pick_best_worker (nodes.filter (fun n => n.is_schedulable)))).getD
                 (p.1 % (((nodes.filter (fun n => n.is_schedulable)).map (fun n => n.name)).filter
                   (fun n => n ≠ pick_best_worker (nodes.filter (fun n => n.is_schedulable)))).length)
                 ""))).length = (sortByScoreDesc deps).length := by
        simp
      rw [List.getD_eq_getElem _ _ (by rw [hAlen]; exact hi)]
      rw [List.getElem_map, List.getElem_enum]
      rw [List.getD_eq_getElem _ _ hi]
    · refine ⟨b, hbmem, hbname, ?_⟩
      intro hex
      by_contra hcp
      have hbt : b.is_control_plane = true := by
        cases hb2 : b.is_control_plane
        · exact absurd hb2 hcp
        · rfl
      obtain ⟨m, hm1, hmcp⟩ := hex
      have hkey := hbmax m hm1
      simp [workerKey, keyLt, hbt, hmcp] at hkey
  · intro h1
    obtain ⟨n0, hn0⟩ := List.length_eq_one.mp h1
    refine ⟨n0, hn0, ?_⟩
    have hsched_ne : nodes.filter (fun n => n.is_schedulable) ≠ [] := by
      intro h0
      rw [h0] at hn0
      simp at hn0
    simp only [compute_assignments, isEmpty_false_of_ne_nil _ hsched_ne,
      Bool.false_eq_true, if_false, compute_antagonistic, hn0]
    rw [if_pos (by simp : ([n0] : List String).length < 2)]
    simp

/-- Witness for C1: two workers and two deployments with distinct names. -/
theorem C1_antagonistic_witness :
    AntagonisticSpec unitPRNG [dep1, dep2] [wNode1, wNode2] none :=
  C1_antagonistic unitPRNG [dep1, dep2] [wNode1, wNode2] none
    (by decide) (by decide)

end ChaosProbe
